import Mathlib

/-!
Verification development for the voice-to-drive capture/persistence/sync engine.

Shallow embedding of the JavaScript sources:
  * `src/js/storage.js`  — IndexedDB-backed chunk store and recording catalog
  * `src/js/drive.js`    — Drive uploader (folder cache, 401 retry) and the
    sync pass plus crash recovery of the App module concatenated at the end of
    that file
  * `src/js/app.js`      — the Supabase-based App module and its sync pass
  * `src/js/recorder.js` and `src/unnamed/part_000` — recorder session machine

Conventions: machine timestamps are `Nat` millisecond ticks; binary blobs are
`List Nat` byte sequences; JavaScript string enums become inductives; session
ids (strings built from `Date.now()` plus a random suffix in the source, hence
fresh per `start`) are modelled as values of a monotone counter; the calendar
formatting of generated file names and drive paths is abbreviated to the
numeric timestamp (no claim inspects the format).
-/

namespace VoiceToDrive

/-! ## Blobs, chunks and recordings (storage.js data model) -/

/-- A binary blob: payload bytes plus a MIME type (JS `Blob`). -/
structure Blob where
  data : List Nat
  btype : String
deriving DecidableEq, Repr

/-- Size of a blob, as JS `blob.size`. -/
def Blob.size (b : Blob) : Nat := b.data.length

/-- JS `new Blob(blobs, \x7btype: blobs[0].type\x7d)`: concatenation of the
payloads, typed after the first blob. -/
def Blob.concatList (bs : List Blob) : Blob :=
  { data := (bs.map Blob.data).flatten
    btype := ((bs.head?).map Blob.btype).getD "" }

/-- A persisted recording fragment (storage.js `saveChunk` record shape). -/
structure Chunk where
  sessionId : Nat
  sequence : Nat
  blob : Blob
  timestamp : Nat
deriving DecidableEq, Repr

/-- Recording status enum: `pending | uploading | synced | failed`. -/
inductive Status where
  | pending
  | uploading
  | synced
  | failed
deriving DecidableEq, Repr

/-- A durable catalog entry (storage.js `saveRecording` record shape).
`synced` is the numeric 0/1 mirror of the status used by the IndexedDB index;
`driveFileId`/`driveId`/`recovered`/`originalSessionId` are the ad hoc extra
fields the call sites attach. -/
structure Recording where
  id : Nat
  blob : Blob
  timestamp : Nat
  duration : Nat
  fileName : String
  drivePath : String
  status : Status
  synced : Nat
  retryCount : Nat
  lastRetry : Option Nat
  fileSize : Nat
  mimeType : String
  syncedAt : Option Nat
  driveFileId : Option Nat
  driveId : Option Nat
  recovered : Bool
  originalSessionId : Option Nat
deriving DecidableEq, Repr

/-! ## recorder.js / part_000 — elapsed time -/

/-- JS truthiness of a numeric timestamp variable: `null`/`undefined` and `0`
are falsy. -/
def truthyTime : Option Int → Bool
  | none => false
  | some t => t != 0

/-- Embedding of recorder.js `getElapsedTime` (same arithmetic as the
part_000 variant): `now − startTime − pausedDuration`, further reduced by
`now − pauseStartTime` when the recorder is paused with a truthy
`pauseStartTime`, then `Math.floor(elapsed / 1000)`.  There is no clamp. -/
def getElapsedTime (now : Int) (startTime : Option Int) (pausedDuration : Int)
    (paused : Bool) (pauseStartTime : Option Int) : Int :=
  if !truthyTime startTime then 0
  else
    let t := startTime.getD 0
    let e1 := now - t - pausedDuration
    let e2 := if paused && truthyTime pauseStartTime
              then e1 - (now - pauseStartTime.getD 0) else e1
    Int.fdiv e2 1000

/-- Time the recorder currently discounts for an ongoing pause: the source
subtracts `now − pauseStartTime` when the recorder is paused with a truthy
pause start. -/
def pauseSpan (now : Int) (paused : Bool) (ps : Option Int) : Int :=
  if paused && truthyTime ps then now - ps.getD 0 else 0

/-! ## drive.js — uploadRecording 401 retry loop -/

/-- One response of the remote uploader to an upload attempt:
either a created file id, or an HTTP error status code. -/
inductive UpOutcome where
  | ok (fileId : Nat)
  | http (code : Nat)
deriving DecidableEq, Repr

/-- Embedding of drive.js `uploadRecording`'s control flow against a stream of
uploader responses (one response consumed per attempt).  On a 401 the source
calls `signIn()` and recursively retries the same item; any other error code
is rethrown.  Returns the final outcome (`none` when the response stream ran
out mid-retry) paired with the number of re-authentications performed. -/
def uploadRecordingRun : List UpOutcome → Option (Except Nat Nat) × Nat
  | [] => (none, 0)
  | .ok fileId :: _ => (some (Except.ok fileId), 0)
  | .http code :: rest =>
    if code = 401 then
      let r := uploadRecordingRun rest
      (r.1, r.2 + 1)
    else (some (Except.error code), 0)

/-- Number of consecutive 401 responses at the head of the stream. -/
def count401Pref : List UpOutcome → Nat
  | [] => 0
  | .ok _ :: _ => 0
  | .http code :: rest => if code = 401 then count401Pref rest + 1 else 0

/-- First response of the stream that is not a 401. -/
def firstNon401 : List UpOutcome → Option UpOutcome
  | [] => none
  | .ok fileId :: _ => some (.ok fileId)
  | .http code :: rest =>
    if code = 401 then firstNon401 rest else some (.http code)

/-- The final outcome an upload run reaches, read off the first non-401
response. -/
def outcomeRes : Option UpOutcome → Option (Except Nat Nat)
  | none => none
  | some (.ok fileId) => some (Except.ok fileId)
  | some (.http code) => some (Except.error code)

/-! ## storage.js — chunk store operations -/

/-- The chunks of one session, in store (insertion) order: the records matched
by the `sessionId` index. -/
def chunksFor (sid : Nat) (cs : List Chunk) : List Chunk :=
  cs.filter (fun c => c.sessionId == sid)

/-- Stable insertion of a chunk into a list sorted by ascending sequence. -/
def insertBySeq (c : Chunk) : List Chunk → List Chunk
  | [] => [c]
  | d :: ds =>
    if c.sequence ≤ d.sequence then c :: d :: ds else d :: insertBySeq c ds

/-- Stable sort by ascending `sequence`, matching the source's
`chunks.sort((a, b) => a.sequence - b.sequence)` (JS sort is stable). -/
def sortBySeq : List Chunk → List Chunk
  | [] => []
  | c :: cs => insertBySeq c (sortBySeq cs)

/-- storage.js `getSessionChunks`: all chunks of a session, sorted ascending
by sequence. -/
def getSessionChunks (sid : Nat) (cs : List Chunk) : List Chunk :=
  sortBySeq (chunksFor sid cs)

/-- storage.js `clearSessionChunks`: delete every chunk of the session. -/
def clearSessionChunks (sid : Nat) (cs : List Chunk) : List Chunk :=
  cs.filter (fun c => c.sessionId != sid)

/-- JS `[...new Set(xs)]`: deduplicate keeping first occurrences in order. -/
def dedupFirst : List Nat → List Nat
  | [] => []
  | x :: xs => x :: dedupFirst (xs.filter (fun y => y != x))
termination_by l => l.length
decreasing_by
  simp only [List.length_cons]
  exact Nat.lt_succ_of_le (List.length_filter_le _ _)

/-- storage.js `getOrphanedSessions`: the distinct session ids present in the
chunk store. -/
def getOrphanedSessions (cs : List Chunk) : List Nat :=
  dedupFirst (cs.map Chunk.sessionId)

/-- storage.js `recoverFromChunks`: `null` when the session has no chunks,
otherwise the in-order concatenation of its chunk blobs. -/
def recoverFromChunks (sid : Nat) (cs : List Chunk) : Option Blob :=
  let chunks := getSessionChunks sid cs
  if chunks.isEmpty then none
  else some (Blob.concatList (chunks.map Chunk.blob))

/-- Sequences of one session's chunks in store order. -/
def seqsFor (sid : Nat) (cs : List Chunk) : List Nat :=
  (chunksFor sid cs).map Chunk.sequence

/-! ## storage.js — recording catalog operations -/

/-- The recordings object store: records plus the auto-increment key state. -/
structure Catalog where
  recs : List Recording
  nextId : Nat
deriving DecidableEq, Repr

/-- The optional metadata object spread into a new recording by
`saveRecording(blob, metadata)`. -/
structure RecMeta where
  duration : Option Nat := none
  mimeType : Option String := none
  recovered : Bool := false
  originalSessionId : Option Nat := none
deriving DecidableEq, Repr

/-- File name derived from the capture time (calendar formatting abbreviated
to the numeric timestamp; no claim inspects the format). -/
def genFileName (now : Nat) : String := toString now ++ ".webm"

/-- Drive path derived from the capture date (calendar formatting abbreviated
to the numeric timestamp; no claim inspects the format). -/
def genDrivePath (now : Nat) : String := "recordings/" ++ toString now

/-- storage.js `saveRecording`: add a new `pending`, unsynced entry with fresh
auto-increment id; the metadata spread overrides `duration`, `mimeType` and
adds the `recovered`/`originalSessionId` fields. -/
def saveRecording (cat : Catalog) (blob : Blob) (meta : RecMeta) (now : Nat) :
    Catalog × Nat :=
  let r : Recording :=
    { id := cat.nextId
      blob := blob
      timestamp := now
      duration := meta.duration.getD 0
      fileName := genFileName now
      drivePath := genDrivePath now
      status := .pending
      synced := 0
      retryCount := 0
      lastRetry := none
      fileSize := blob.size
      mimeType := meta.mimeType.getD blob.btype
      syncedAt := none
      driveFileId := none
      driveId := none
      recovered := meta.recovered
      originalSessionId := meta.originalSessionId }
  ({ recs := cat.recs ++ [r], nextId := cat.nextId + 1 }, cat.nextId)

/-- storage.js `getUnsyncedRecordings`: every record whose numeric `synced`
mirror is 0 (no filtering on `retryCount` happens here). -/
def getUnsyncedRecordings (cat : Catalog) : List Recording :=
  cat.recs.filter (fun r => r.synced == 0)

/-- storage.js `getRecording`: lookup by primary key. -/
def getRecording (cat : Catalog) (id : Nat) : Option Recording :=
  cat.recs.find? (fun r => r.id == id)

/-- The `extraFields` object passed to `updateRecordingStatus`; only the
fields actually used by the call sites appear. `none` means the field is
absent from the object. -/
structure ExtraFields where
  retryCount : Option Nat := none
  lastRetry : Option Nat := none
  driveFileId : Option Nat := none
  driveId : Option Nat := none
deriving DecidableEq, Repr

/-- `Object.assign(recording, extraFields)`. -/
def applyExtra (r : Recording) (e : ExtraFields) : Recording :=
  { r with
    retryCount := e.retryCount.getD r.retryCount
    lastRetry := match e.lastRetry with
      | some v => some v
      | none => r.lastRetry
    driveFileId := match e.driveFileId with
      | some v => some v
      | none => r.driveFileId
    driveId := match e.driveId with
      | some v => some v
      | none => r.driveId }

/-- The field writes `updateRecordingStatus` performs before the extra-field
assign: set the status, recompute the numeric `synced` mirror, and stamp
`syncedAt` when the new status is `synced`. -/
def setStatusFields (r : Recording) (status : Status) (now : Nat) : Recording :=
  { r with
    status := status
    synced := if status = .synced then 1 else 0
    syncedAt := if status = .synced then some now else r.syncedAt }

/-- storage.js `updateRecordingStatus`: read-modify-write of the record with
the given key.  The source rejects when the id is absent; the model leaves
the catalog unchanged there (no call site in the claims reaches that case). -/
def updateRecordingStatus (cat : Catalog) (id : Nat) (status : Status)
    (e : ExtraFields) (now : Nat) : Catalog :=
  { cat with
    recs := cat.recs.map fun r =>
      if r.id == id then applyExtra (setStatusFields r status now) e else r }

/-- storage.js `incrementRetryCount`: a no-op when the id is absent, otherwise
a rewrite of the record with its current status, `retryCount + 1` and a fresh
`lastRetry` stamp. -/
def incrementRetryCount (cat : Catalog) (id : Nat) (now : Nat) : Catalog :=
  match getRecording cat id with
  | none => cat
  | some r =>
    updateRecordingStatus cat id r.status
      { retryCount := some (r.retryCount + 1), lastRetry := some now } now

/-- storage.js `markRecordingAsSynced`. -/
def markRecordingAsSynced (cat : Catalog) (id fileId : Nat) (now : Nat) :
    Catalog :=
  updateRecordingStatus cat id .synced { driveId := some fileId } now

/-- The catalog entries recovery produced for one session (each recovered
entry carries `originalSessionId`). -/
def recsFor (sid : Nat) (cat : Catalog) : List Recording :=
  cat.recs.filter (fun r => r.originalSessionId == some sid)

/-! ## drive.js App module — crash recovery (`checkForRecovery`) -/

/-- The client-local persistent state recovery operates on. -/
structure AppStore where
  chunks : List Chunk
  catalog : Catalog
deriving DecidableEq, Repr

/-- One iteration of `checkForRecovery`'s loop: rebuild the session's payload;
if it is non-null and nonempty, save it as a recovered `pending` recording;
then clear the session's chunks. -/
def processSession (now : Nat) (st : AppStore) (sid : Nat) : AppStore :=
  let blob? := recoverFromChunks sid st.chunks
  let catalog2 := match blob? with
    | some b =>
      if 0 < b.size then
        (saveRecording st.catalog b
          { recovered := true, originalSessionId := some sid } now).1
      else st.catalog
    | none => st.catalog
  { chunks := clearSessionChunks sid st.chunks, catalog := catalog2 }

/-- drive.js App `checkForRecovery`, run once at startup: process every
orphaned session in the chunk store. -/
def checkForRecovery (st : AppStore) (now : Nat) : AppStore :=
  (getOrphanedSessions st.chunks).foldl (processSession now) st

/-- The spec's crash-recovery example: chunks "He" (sequence 0) and "llo"
(sequence 1) for session 0, with an empty catalog. -/
def demoStore : AppStore :=
  { chunks :=
      [{ sessionId := 0
         sequence := 0
         blob := { data := [72, 101], btype := "audio/webm" }
         timestamp := 5 },
       { sessionId := 0
         sequence := 1
         blob := { data := [108, 108, 111], btype := "audio/webm" }
         timestamp := 6 }]
    catalog := { recs := [], nextId := 1 } }

/-! ## drive.js App module — sync pass (`syncRecordings`) -/

/-- `CONFIG.MAX_RETRY_COUNT`. -/
def MAX_RETRY_COUNT : Nat := 5

/-- One iteration of the drive.js App sync loop over the snapshot of unsynced
recordings.  The accumulator carries the live catalog and the log of ids
handed to the uploader.  Items at the retry cap are skipped (`continue`); a
successful upload marks the item synced; a failed upload is caught by the
per-item catch, which records `failed` and increments the retry count, and
the loop continues. -/
def processUpload (outcome : Nat → Option Nat) (now : Nat)
    (acc : Catalog × List Nat) (r : Recording) : Catalog × List Nat :=
  if MAX_RETRY_COUNT ≤ r.retryCount then acc
  else
    let cat1 := updateRecordingStatus acc.1 r.id .uploading {} now
    match outcome r.id with
    | some fileId =>
      (updateRecordingStatus cat1 r.id .synced { driveFileId := some fileId } now,
        acc.2 ++ [r.id])
    | none =>
      (incrementRetryCount (updateRecordingStatus cat1 r.id .failed {} now)
        r.id now,
        acc.2 ++ [r.id])

/-- drive.js App `syncRecordings` (body between the guard and the finally):
fetch the unsynced snapshot and process it strictly sequentially.  `outcome`
gives each item's upload result (`none` = the upload threw).  Returns the
final catalog and the ids passed to the uploader. -/
def syncRecordingsLegacy (cat : Catalog) (outcome : Nat → Option Nat)
    (now : Nat) : Catalog × List Nat :=
  (getUnsyncedRecordings cat).foldl (processUpload outcome now) (cat, [])

/-! ## app.js App module — Supabase sync pass (`syncRecordings`) -/

/-- A Supabase `recordings` row (the fields the sync pass touches). -/
structure SRec where
  id : Nat
  syncedToDrive : Nat
  driveFileId : Option Nat
deriving DecidableEq, Repr

/-- SupabaseService `getUnsyncedToDriveRecords`. -/
def getUnsyncedToDriveRecords (rows : List SRec) : List SRec :=
  rows.filter (fun q => q.syncedToDrive == 0)

/-- SupabaseService `markSyncedToDrive`. -/
def markSyncedToDrive (rows : List SRec) (id fileId : Nat) : List SRec :=
  rows.map fun q =>
    if q.id == id then { q with syncedToDrive := 1, driveFileId := some fileId }
    else q

/-- The `for` loop of app.js `syncRecordings`.  There is no per-item catch: a
throwing upload propagates to the catch outside the loop, so the remaining
items are skipped and no failed-status write or retry increment happens. -/
def syncLoopApp (outcome : Nat → Option Nat) (now : Nat) :
    List SRec → List SRec → Catalog → List SRec × Catalog
  | [], rows, cat => (rows, cat)
  | q :: rest, rows, cat =>
    match outcome q.id with
    | none => (rows, cat)
    | some fileId =>
      syncLoopApp outcome now rest (markSyncedToDrive rows q.id fileId)
        (markRecordingAsSynced cat q.id fileId now)

/-- app.js `syncRecordings` (body between the guard and the finally). -/
def syncRecordingsApp (rows : List SRec) (cat : Catalog)
    (outcome : Nat → Option Nat) (now : Nat) : List SRec × Catalog :=
  syncLoopApp outcome now (getUnsyncedToDriveRecords rows) rows cat

/-- A freshly saved pending recording with the given id (used for concrete
catalog states). -/
def pendingRec (id : Nat) : Recording :=
  { id := id
    blob := { data := [1, 2], btype := "audio/webm" }
    timestamp := 10
    duration := 3
    fileName := "10.webm"
    drivePath := "recordings/10"
    status := .pending
    synced := 0
    retryCount := 0
    lastRetry := none
    fileSize := 2
    mimeType := "audio/webm"
    syncedAt := none
    driveFileId := none
    driveId := none
    recovered := false
    originalSessionId := none }

/-- A recording that has already been synced (used for concrete catalog
states). -/
def sampleSyncedRec : Recording :=
  { pendingRec 1 with
    status := .synced
    synced := 1
    syncedAt := some 111
    driveFileId := some 9 }

/-! ## Sync-pass single-flight guard (app.js 416–421 / drive.js 987–992)

Both variants open with the synchronous prologue
`if (isSyncing || !authenticated) return; isSyncing = true;` and reset the
guard in their `finally`.  The prologue contains no `await`, so under the
single-threaded event loop it is one atomic step: checking and setting the
guard happen before the first suspension point.  The model below runs two
invocations of the pass under an arbitrary interleaving of their
await-separated segments. -/

/-- Program counter of one invocation of the sync pass: `entry` = about to
run the synchronous guard prologue; `body m` = holding the guard with `m`
awaited segments left (the last segment is the `finally` that clears the
guard); `done b` records whether the invocation ran the body (`false` = it
was a guard-rejected no-op). -/
inductive PassPC where
  | entry
  | body (remaining : Nat)
  | done (ranBody : Bool)
deriving DecidableEq, Repr

/-- Whether an invocation is between setting and clearing the guard. -/
def PassPC.isBody : PassPC → Bool
  | .body _ => true
  | _ => false

/-- Shared state plus the two invocations' program counters. -/
structure SyncSystem where
  syncing : Bool
  authed : Bool
  pcA : PassPC
  pcB : PassPC
deriving DecidableEq, Repr

/-- One atomic segment of one invocation: the guard prologue (check and set
before the first await), an inner awaited segment, or the final segment that
clears the guard. -/
def stepPass (n : Nat) (syncing authed : Bool) : PassPC → Bool × PassPC
  | .entry => if syncing || !authed then (syncing, .done false)
              else (true, .body n)
  | .body 0 => (false, .done true)
  | .body (m + 1) => (syncing, .body m)
  | .done b => (syncing, .done b)

/-- Scheduler step: run one atomic segment of invocation A (`true`) or B
(`false`). -/
def stepSys (n : Nat) (s : SyncSystem) (choice : Bool) : SyncSystem :=
  if choice then
    let r := stepPass n s.syncing s.authed s.pcA
    { s with syncing := r.1, pcA := r.2 }
  else
    let r := stepPass n s.syncing s.authed s.pcB
    { s with syncing := r.1, pcB := r.2 }

/-- Run a whole schedule. -/
def runSys (n : Nat) (s : SyncSystem) (cs : List Bool) : SyncSystem :=
  cs.foldl (stepSys n) s

/-- Initial state: guard clear, both invocations about to be triggered. -/
def initSys (authed : Bool) : SyncSystem :=
  { syncing := false, authed := authed, pcA := .entry, pcB := .entry }

/-- Single-flight invariant: the guard is set exactly while some invocation
is in its body, and never are two invocations in their bodies at once. -/
def SyncInv (s : SyncSystem) : Prop :=
  s.syncing = (s.pcA.isBody || s.pcB.isBody) ∧
  ¬(s.pcA.isBody = true ∧ s.pcB.isBody = true)

/-! ## drive.js — `ensureFolderPath` and the folder cache -/

/-- A remote Drive folder. -/
structure Folder where
  fid : Nat
  name : String
  parent : Nat
deriving DecidableEq, Repr

/-- Remote folder tree plus the module-level `folderCache` map.  Folder ids
are server-assigned from a counter; the Drive `root` alias is id 0. -/
structure DriveSt where
  folders : List Folder
  nextId : Nat
  cache : List (String × Nat)
deriving DecidableEq, Repr

/-- `folderCache.get` / `folderCache.has`. -/
def cacheGet (c : List (String × Nat)) (p : String) : Option Nat :=
  (c.find? (fun kv => kv.1 == p)).map Prod.snd

/-- `folderCache.set`; prepending shadows any old binding, and lookup is the
only access pattern. -/
def cacheSet (c : List (String × Nat)) (p : String) (v : Nat) :
    List (String × Nat) :=
  (p, v) :: c

/-- drive.js `findFolder`: first remote folder with this name under this
parent. -/
def findFolder (name : String) (parent : Nat) (fs : List Folder) : Option Nat :=
  (fs.find? (fun f => f.name == name && f.parent == parent)).map Folder.fid

/-- drive.js `createFolder`: create a folder with a fresh server id. -/
def createFolder (name : String) (parent : Nat) (st : DriveSt) :
    Nat × DriveSt :=
  (st.nextId,
   { st with
      folders := st.folders ++ [{ fid := st.nextId, name := name, parent := parent }]
      nextId := st.nextId + 1 })

/-- JS whitespace for `trim()` (the characters that can occur here). -/
def isJsSpace (c : Char) : Bool :=
  c = ' ' || c = '\t' || c = '\n' || c = '\r'

/-- `p.trim()` over the characters of `p`. -/
def jsTrim (l : List Char) : List Char :=
  ((l.dropWhile isJsSpace).reverse.dropWhile isJsSpace).reverse

/-- `path.split('/')` over the characters of `path` (`acc` holds the current
segment reversed). -/
def splitSlash (acc : List Char) : List Char → List (List Char)
  | [] => [acc.reverse]
  | c :: cs =>
    if c = '/' then acc.reverse :: splitSlash [] cs
    else splitSlash (c :: acc) cs

/-- `path.split('/').filter(p => p && p.trim() !== '')`. -/
def splitPathParts (path : String) : List String :=
  ((splitSlash [] path.data).filter (fun p => !(jsTrim p).isEmpty)).map
    List.asString

/-- The `for (const folderName of parts)` loop of `ensureFolderPath`,
carrying `currentPath`, `parentId` and the state. -/
def ensureLoop : List String → String → Nat → DriveSt → Nat × DriveSt
  | [], _, parent, st => (parent, st)
  | name :: rest, curPath, parent, st =>
    let cur2 := if curPath == "" then name else curPath ++ "/" ++ name
    match cacheGet st.cache cur2 with
    | some v => ensureLoop rest cur2 v st
    | none =>
      let r := match findFolder name parent st.folders with
        | some f => (f, st)
        | none => createFolder name parent st
      ensureLoop rest cur2 r.1
        { r.2 with cache := cacheSet r.2.cache cur2 r.1 }

/-- drive.js `ensureFolderPath`: answer from the cache when possible,
otherwise walk the path segments creating missing folders, then cache the
full path. -/
def ensureFolderPath (path : String) (st : DriveSt) : Nat × DriveSt :=
  match cacheGet st.cache path with
  | some v => (v, st)
  | none =>
    let r := ensureLoop (splitPathParts path) "" 0 st
    (r.1, { r.2 with cache := cacheSet r.2.cache path r.1 })

/-! ## recorder.js — session state machine

Events model the callbacks and timers that drive the recorder:
`dataAvail` is a MediaRecorder `ondataavailable` delivery (fires while
recording; fragments of size 0 are dropped by `handleDataAvailable`);
`flushTick` is the 30-second chunk interval (live exactly while the session's
timer runs); the rest are the public API calls.  Session ids come from the
`nextSid` counter, mirroring the fresh `Date.now()`-based ids of the source. -/

/-- `MediaRecorder.state` (a null `mediaRecorder` reads as `inactive`). -/
inductive RecState where
  | inactive
  | recording
  | paused
deriving DecidableEq, Repr

/-- The recorder's configured MIME type. -/
def recMime : String := "audio/webm;codecs=opus"

/-- The module-level mutable state of recorder.js plus the chunk store it
writes through `StorageService`. -/
structure RecorderM where
  recSt : RecState
  sessionId : Option Nat
  fragments : List (List Nat)
  chunkSequence : Nat
  startTime : Option Nat
  pausedDuration : Nat
  pauseStartTime : Option Nat
  timerOn : Bool
  nextSid : Nat
  store : List Chunk
deriving DecidableEq, Repr

/-- recorder.js `start`: a warn-and-return no-op when already `recording`
(the paused state is not checked), otherwise allocate a fresh session id,
reset the buffers and counters, and begin recording with the flush timer. -/
def startR (now : Nat) (st : RecorderM) : RecorderM :=
  if st.recSt = .recording then st
  else
    { st with
      sessionId := some st.nextSid
      nextSid := st.nextSid + 1
      fragments := []
      chunkSequence := 0
      pausedDuration := 0
      pauseStartTime := none
      recSt := .recording
      startTime := some now
      timerOn := true }

/-- recorder.js `saveCurrentChunk`: package the buffered fragments into one
chunk at the current sequence number, persist it, advance the sequence and
clear the buffer.  The `none` session branch is unreachable while the flush
timer runs (part_000 also guards on a falsy `sessionId`). -/
def saveCurrentChunkR (now : Nat) (st : RecorderM) : RecorderM :=
  match st.sessionId with
  | none => st
  | some sid =>
    if st.fragments.isEmpty then st
    else
      { st with
        store := st.store ++
          [{ sessionId := sid
             sequence := st.chunkSequence
             blob := { data := st.fragments.flatten, btype := recMime }
             timestamp := now }]
        chunkSequence := st.chunkSequence + 1
        fragments := [] }

/-- recorder.js `pause`: only from `recording`; record the pause start and
force an immediate out-of-band flush. -/
def pauseR (now : Nat) (st : RecorderM) : RecorderM :=
  if st.recSt = .recording then
    saveCurrentChunkR now { st with recSt := .paused, pauseStartTime := some now }
  else st

/-- recorder.js `resume`: only from `paused`; accumulate the pause span when
the pause start is truthy. -/
def resumeR (now : Nat) (st : RecorderM) : RecorderM :=
  if st.recSt = .paused then
    let st1 := match st.pauseStartTime with
      | some p =>
        if p ≠ 0 then
          { st with
            pausedDuration := st.pausedDuration + (now - p)
            pauseStartTime := none }
        else st
      | none => st
    { st1 with recSt := .recording }
  else st

/-- MediaRecorder `ondataavailable` while recording: `handleDataAvailable`
drops empty fragments and buffers the rest. -/
def dataAvailR (frag : List Nat) (st : RecorderM) : RecorderM :=
  if st.recSt = .recording then
    if frag.isEmpty then st else { st with fragments := st.fragments ++ [frag] }
  else st

/-- recorder.js `stop`: cancel the flush timer; when a recorder is live,
its `onstop` handler clears the session's persisted chunks and resets the
buffers and session id. -/
def stopRec (st : RecorderM) : RecorderM :=
  if st.recSt = .inactive then { st with timerOn := false }
  else
    { st with
      timerOn := false
      store := match st.sessionId with
        | some sid => clearSessionChunks sid st.store
        | none => st.store
      fragments := []
      sessionId := none
      recSt := .inactive }

/-- recorder.js `cancel`: stop the timer and the recorder without processing,
clear the session's persisted chunks, reset the buffers and session id. -/
def cancelRec (st : RecorderM) : RecorderM :=
  { st with
    timerOn := false
    store := match st.sessionId with
      | some sid => clearSessionChunks sid st.store
      | none => st.store
    fragments := []
    sessionId := none
    recSt := .inactive }

/-- The 30-second chunk interval firing: a flush while the timer is live. -/
def flushTickR (now : Nat) (st : RecorderM) : RecorderM :=
  if st.timerOn then saveCurrentChunkR now st else st

/-- An event driving the recorder machine. -/
inductive REvent where
  | start (now : Nat)
  | dataAvail (frag : List Nat)
  | flushTick (now : Nat)
  | pauseE (now : Nat)
  | resumeE (now : Nat)
  | stopE
  | cancelE
deriving DecidableEq, Repr

/-- Step of the recorder machine. -/
def stepR (st : RecorderM) : REvent → RecorderM
  | .start now => startR now st
  | .dataAvail frag => dataAvailR frag st
  | .flushTick now => flushTickR now st
  | .pauseE now => pauseR now st
  | .resumeE now => resumeR now st
  | .stopE => stopRec st
  | .cancelE => cancelRec st

/-- Run an event trace. -/
def runR (st : RecorderM) (evs : List REvent) : RecorderM :=
  evs.foldl stepR st

/-- Initial recorder state (module load). -/
def initR : RecorderM :=
  { recSt := .inactive
    sessionId := none
    fragments := []
    chunkSequence := 0
    startTime := none
    pausedDuration := 0
    pauseStartTime := none
    timerOn := false
    nextSid := 0
    store := [] }

/-- Recorder machine invariant: future session ids own no chunks, the current
session's persisted sequences are exactly `0..chunkSequence−1` in store
order, every session's sequences form an initial range in store order, and
every buffered fragment and persisted chunk payload is nonempty. -/
def RInv (st : RecorderM) : Prop :=
  (∀ S, st.nextSid ≤ S → seqsFor S st.store = []) ∧
  (∀ S, st.sessionId = some S →
    S < st.nextSid ∧ seqsFor S st.store = List.range st.chunkSequence) ∧
  (∀ S, ∃ k, seqsFor S st.store = List.range k) ∧
  (∀ f ∈ st.fragments, f ≠ []) ∧
  (∀ c ∈ st.store, c.blob.data ≠ [])

/-! # Theorems -/

/-! ## C4 — AuthExpired handling in `uploadRecording` -/

/-- C4 (counterexample): on the response stream 401, 401, success the source
performs two re-authentications and the upload then succeeds, contradicting
the claim that at most one re-authentication retry happens per item and that
a failing retry falls through to generic failure handling. -/
theorem C4_counterexample :
    uploadRecordingRun [UpOutcome.http 401, UpOutcome.http 401, UpOutcome.ok 7]
      = (some (Except.ok 7), 2) ∧
    ¬ (uploadRecordingRun
        [UpOutcome.http 401, UpOutcome.http 401, UpOutcome.ok 7]).2 ≤ 1 :=
  ⟨rfl, by decide⟩

/-- C4 (amended): `uploadRecording` re-authenticates and retries once per 401
response, with no upper bound: the run performs exactly as many
re-authentications as there are consecutive 401 responses, and its final
outcome is decided by the first non-401 response (success, or a generic
failure that propagates to the caller). -/
theorem C4_auth_retry_characterization (l : List UpOutcome) :
    uploadRecordingRun l = (outcomeRes (firstNon401 l), count401Pref l) := by
  induction l with
  | nil => rfl
  | cons o rest ih =>
    cases o with
    | ok fileId => rfl
    | http code =>
      by_cases h : code = 401
      · subst h
        simp [uploadRecordingRun, firstNon401, count401Pref, ih]
      · simp [uploadRecordingRun, firstNon401, count401Pref, outcomeRes, h]

/-! ## C8 — elapsed-time formula and (absent) clamping -/

/-- C8 (counterexample): a state with `startTime = 100`, `pausedDuration =
5000` and `now = 100` makes `getElapsedTime` return −5: the source has no
clamp at zero, so the result is not nonnegative for every combination of
field values. -/
theorem C8_counterexample :
    getElapsedTime 100 (some 100) 5000 false none = -5 ∧
    getElapsedTime 100 (some 100) 5000 false none < 0 := by
  decide

/-- C8 (amended): with a truthy `startTime`, `getElapsedTime` returns
`floor((now − startTime − pausedDuration − pauseSpan) / 1000)` with no
clamping; the result is nonnegative whenever the accumulated paused time does
not exceed `now − startTime`, which holds in every reachable recorder state,
but can be negative outside that range. -/
theorem C8_elapsed_formula (now t pd : Int) (paused : Bool) (ps : Option Int)
    (ht : t ≠ 0) (h : pd + pauseSpan now paused ps ≤ now - t) :
    getElapsedTime now (some t) pd paused ps
      = Int.fdiv (now - t - pd - pauseSpan now paused ps) 1000 ∧
    0 ≤ getElapsedTime now (some t) pd paused ps := by
  have htr : truthyTime (some t) = true := by
    simp [truthyTime, ht]
  have hform : getElapsedTime now (some t) pd paused ps
      = Int.fdiv (now - t - pd - pauseSpan now paused ps) 1000 := by
    unfold getElapsedTime pauseSpan
    by_cases hc : (paused && truthyTime ps) = true
    · simp [htr, hc]
    · simp [htr, hc]
  refine ⟨hform, ?_⟩
  rw [hform]
  exact Int.fdiv_nonneg (by omega) (by norm_num)

/-- C8 witness: the spec's example (start at t=1ms, 5000ms paused in total,
stopped at t=20001ms) evaluates through the theorem to a nonnegative elapsed
time. -/
theorem C8_elapsed_formula_witness :
    getElapsedTime 20001 (some 1) 5000 false none
      = Int.fdiv (20001 - 1 - 5000 - pauseSpan 20001 false none) 1000 ∧
    0 ≤ getElapsedTime 20001 (some 1) 5000 false none :=
  C8_elapsed_formula 20001 1 5000 false none (by decide) (by decide)

/-! ## Catalog lookup/update helper lemmas -/

theorem find?_updList (recs : List Recording) (id j : Nat)
    (f : Recording → Recording) (hf : ∀ r, (f r).id = r.id) :
    ((recs.map fun r => if r.id == id then f r else r).find?
        (fun r => r.id == j))
      = (recs.find? (fun r => r.id == j)).map
          (fun r => if r.id == id then f r else r) := by
  induction recs with
  | nil => rfl
  | cons r rs ih =>
    have hid : (if (r.id == id) = true then f r else r).id = r.id := by
      split
      · exact hf r
      · rfl
    simp only [List.map_cons, List.find?]
    rw [hid]
    cases hpa : (r.id == j) with
    | true => simp [hpa]
    | false => simpa [hpa] using ih

theorem getRecording_update (cat : Catalog) (id j : Nat) (status : Status)
    (e : ExtraFields) (now : Nat) :
    getRecording (updateRecordingStatus cat id status e now) j
      = (getRecording cat j).map
          (fun r =>
            if r.id == id then applyExtra (setStatusFields r status now) e
            else r) := by
  unfold getRecording updateRecordingStatus
  exact find?_updList cat.recs id j _ (fun r => rfl)

theorem getRecording_update_ne (cat : Catalog) (id j : Nat) (status : Status)
    (e : ExtraFields) (now : Nat) (hj : j ≠ id) :
    getRecording (updateRecordingStatus cat id status e now) j
      = getRecording cat j := by
  rw [getRecording_update]
  cases hg : getRecording cat j with
  | none => rfl
  | some x =>
    have hx : (x.id == j) = true := by
      have := List.find?_some hg
      simpa using this
    have hxid : x.id = j := by simpa using hx
    simp [hxid, hj]

theorem getRecording_increment_ne (cat : Catalog) (id j now : Nat)
    (hj : j ≠ id) :
    getRecording (incrementRetryCount cat id now) j = getRecording cat j := by
  unfold incrementRetryCount
  cases hg : getRecording cat id with
  | none => rfl
  | some r => exact getRecording_update_ne cat id j r.status _ now hj

/-! ## C10 — frame effect of `incrementRetryCount` -/

/-- C10 (counterexample): on a catalog holding a recording whose status is
`synced` (with `syncedAt = 111`), `incrementRetryCount` at time 222 rewrites
`syncedAt` to 222 — a field other than `retryCount`, `lastRetry` and the
rewritten status changes, so the claim that all other fields are left
unchanged fails. -/
theorem C10_counterexample :
    (getRecording
        (incrementRetryCount { recs := [sampleSyncedRec], nextId := 2 } 1 222)
        1).map Recording.syncedAt = some (some 222) ∧
    sampleSyncedRec.syncedAt = some 111 :=
  ⟨rfl, rfl⟩

/-- C10 (amended): for an id absent from the catalog, `incrementRetryCount`
is a no-op.  For a present id it rewrites exactly that record with its
current status: `retryCount` grows by one, `lastRetry` is stamped, the
numeric `synced` mirror is recomputed from the (unchanged) status, and —
because the rewrite goes through `updateRecordingStatus` — `syncedAt` is
refreshed to the current time when the status is `synced`; every other field
of that record, and every other record, is unchanged. -/
theorem C10_incrementRetry_frame (cat : Catalog) (id now : Nat) :
    (getRecording cat id = none → incrementRetryCount cat id now = cat) ∧
    (∀ r, getRecording cat id = some r →
      getRecording (incrementRetryCount cat id now) id
        = some { r with
            retryCount := r.retryCount + 1
            lastRetry := some now
            synced := if r.status = .synced then 1 else 0
            syncedAt := if r.status = .synced then some now else r.syncedAt } ∧
      ∀ j, j ≠ id → getRecording (incrementRetryCount cat id now) j
        = getRecording cat j) := by
  constructor
  · intro h
    unfold incrementRetryCount
    rw [h]
  · intro r h
    refine ⟨?_, fun j hj => getRecording_increment_ne cat id j now hj⟩
    have hrid : (r.id == id) = true := by
      have := List.find?_some (by simpa [getRecording] using h)
      simpa using this
    unfold incrementRetryCount
    rw [h, getRecording_update, h]
    exact congrArg some (by beta_reduce; rw [if_pos hrid]; rfl)

/-- C10 witness: a missing id (7) leaves a one-record catalog unchanged, and
incrementing the present pending record 1 at time 50 yields retry count 1
with `lastRetry = 50`. -/
theorem C10_incrementRetry_frame_witness :
    incrementRetryCount { recs := [pendingRec 1], nextId := 2 } 7 50
      = { recs := [pendingRec 1], nextId := 2 } ∧
    getRecording (incrementRetryCount { recs := [pendingRec 1], nextId := 2 } 1 50) 1
      = some { pendingRec 1 with
          retryCount := 1
          lastRetry := some 50
          synced := 0
          syncedAt := none } :=
  ⟨(C10_incrementRetry_frame { recs := [pendingRec 1], nextId := 2 } 7 50).1 rfl,
   ((C10_incrementRetry_frame { recs := [pendingRec 1], nextId := 2 } 1 50).2
      (pendingRec 1) rfl).1⟩

/-! ## C9 — idempotence of `ensureFolderPath` -/

theorem ensureFolderPath_caches (path : String) (st : DriveSt) :
    cacheGet (ensureFolderPath path st).2.cache path
      = some (ensureFolderPath path st).1 := by
  unfold ensureFolderPath
  cases h : cacheGet st.cache path with
  | some v => exact h
  | none => simp [cacheGet, cacheSet]

/-- C9: `ensureFolderPath` is idempotent.  A repeated call with the same path
hits the `path → folderId` cache, returns the same folder id and performs no
remote mutation at all (the whole state is unchanged); and on the spec's
example, the first call from an empty remote creates exactly one folder per
path segment. -/
theorem C9_ensureFolderPath_idempotent :
    (∀ path st, ensureFolderPath path (ensureFolderPath path st).2
        = ensureFolderPath path st) ∧
    (ensureFolderPath "A/B/C"
        { folders := [], nextId := 1, cache := [] }).2.folders.map Folder.name
      = ["A", "B", "C"] ∧
    (ensureFolderPath "A/B/C"
        ((ensureFolderPath "A/B/C"
          { folders := [], nextId := 1, cache := [] }).2)).1
      = (ensureFolderPath "A/B/C" { folders := [], nextId := 1, cache := [] }).1 := by
  have hrep : ∀ path st, ensureFolderPath path (ensureFolderPath path st).2
      = ensureFolderPath path st := by
    intro path st
    have hc := ensureFolderPath_caches path st
    rcases hE : ensureFolderPath path st with ⟨v, st1⟩
    rw [hE] at hc
    have hc2 : cacheGet st1.cache path = some v := hc
    show ensureFolderPath path st1 = (v, st1)
    unfold ensureFolderPath
    rw [hc2]
  refine ⟨hrep, by decide, ?_⟩
  rw [hrep]

/-! ## C2 — single-flight sync guard -/

theorem stepSys_preserves_inv (n : Nat) (s : SyncSystem) (c : Bool)
    (h : SyncInv s) : SyncInv (stepSys n s c) := by
  rcases h with ⟨h1, h2⟩
  rcases s with ⟨g, a, pa, pb⟩
  simp only [SyncInv] at h1 h2 ⊢
  cases c
  · -- invocation B takes a step
    simp only [stepSys, Bool.false_eq_true, if_false]
    cases pb with
    | entry =>
      by_cases hg : (g || !a) = true
      · simp only [stepPass, hg, if_true]
        simp only [PassPC.isBody] at h1 h2 ⊢
        simpa using h1
      · simp only [stepPass, hg, if_false]
        simp only [PassPC.isBody, Bool.or_false] at h1 h2 ⊢
        have hgf : g = false := by
          cases g
          · rfl
          · simp at hg
        rw [hgf] at h1
        constructor
        · simp
        · simp [← h1]
    | body m =>
      cases m with
      | zero =>
        simp only [stepPass]
        simp only [PassPC.isBody, Bool.or_true] at h1 h2 ⊢
        constructor
        · simp only [Bool.or_false]
          by_contra hcon
          exact h2 ⟨by simpa using hcon, trivial⟩
        · simp
      | succ m =>
        simp only [stepPass]
        simp only [PassPC.isBody] at h1 h2 ⊢
        exact ⟨h1, h2⟩
    | done b =>
      simp only [stepPass]
      simp only [PassPC.isBody] at h1 h2 ⊢
      exact ⟨h1, h2⟩
  · -- invocation A takes a step
    simp only [stepSys, if_true]
    cases pa with
    | entry =>
      by_cases hg : (g || !a) = true
      · simp only [stepPass, hg, if_true]
        simp only [PassPC.isBody] at h1 h2 ⊢
        simpa using h1
      · simp only [stepPass, hg, if_false]
        simp only [PassPC.isBody, Bool.false_or] at h1 h2 ⊢
        have hgf : g = false := by
          cases g
          · rfl
          · simp at hg
        rw [hgf] at h1
        constructor
        · simp
        · simp [← h1]
    | body m =>
      cases m with
      | zero =>
        simp only [stepPass]
        simp only [PassPC.isBody, Bool.true_or] at h1 h2 ⊢
        constructor
        · simp only [Bool.false_or]
          by_contra hcon
          exact h2 ⟨trivial, by simpa using hcon⟩
        · simp
      | succ m =>
        simp only [stepPass]
        simp only [PassPC.isBody] at h1 h2 ⊢
        exact ⟨h1, h2⟩
    | done b =>
      simp only [stepPass]
      simp only [PassPC.isBody] at h1 h2 ⊢
      exact ⟨h1, h2⟩

theorem runSys_inv (n : Nat) (authed : Bool) (cs : List Bool) :
    SyncInv (runSys n (initSys authed) cs) := by
  have hrun : ∀ s, SyncInv s → SyncInv (runSys n s cs) := by
    induction cs with
    | nil => exact fun s hs => hs
    | cons c cs ih =>
      intro s hs
      exact ih _ (stepSys_preserves_inv n s c hs)
  exact hrun _ (by simp [SyncInv, initSys, PassPC.isBody])

/-- C2: the sync pass is single-flight.  Under every interleaving of two
invocations of the pass, never are both between setting and clearing the
`syncing` guard, so at most one body executes at a time; and an invocation
whose guard prologue (the synchronous check-and-set that precedes the first
await) runs while the guard is set terminates immediately as a no-op,
leaving the guard and all shared state untouched. -/
theorem C2_single_flight :
    (∀ (n : Nat) (authed : Bool) (cs : List Bool),
      ¬((runSys n (initSys authed) cs).pcA.isBody = true ∧
        (runSys n (initSys authed) cs).pcB.isBody = true)) ∧
    (∀ (n : Nat) (authed : Bool),
      stepPass n true authed .entry = (true, .done false)) := by
  constructor
  · intro n authed cs
    exact (runSys_inv n authed cs).2
  · intro n authed
    simp [stepPass]

/-! ## Legacy sync pass helper lemmas (drive.js App `syncRecordings`) -/

theorem find?_id_of_mem (l : List Recording) (r : Recording)
    (hnd : (l.map Recording.id).Nodup) (hr : r ∈ l) :
    l.find? (fun x => x.id == r.id) = some r := by
  induction l with
  | nil => cases hr
  | cons a as ih =>
    rcases List.mem_cons.mp hr with h | h
    · subst h
      simp [List.find?]
    · have hnd1 : (Recording.id a :: as.map Recording.id).Nodup := by
        simpa only [List.map_cons] using hnd
      have hnd2 := List.nodup_cons.mp hnd1
      have hne : a.id ≠ r.id := by
        intro he
        exact hnd2.1 (he ▸ List.mem_map_of_mem Recording.id h)
      have hb : (a.id == r.id) = false := by simpa using hne
      simp only [List.find?, hb]
      exact ih hnd2.2 h

theorem getRecording_update_self (cat : Catalog) (id : Nat) (status : Status)
    (e : ExtraFields) (now : Nat) (r : Recording)
    (h : getRecording cat id = some r) (hid : r.id = id) :
    getRecording (updateRecordingStatus cat id status e now) id
      = some (applyExtra (setStatusFields r status now) e) := by
  rw [getRecording_update, h]
  exact congrArg some (by beta_reduce; rw [if_pos (by simp [hid])])

theorem getRecording_increment_self (cat : Catalog) (id now : Nat)
    (r : Recording) (h : getRecording cat id = some r) (hid : r.id = id) :
    getRecording (incrementRetryCount cat id now) id
      = some (applyExtra (setStatusFields r r.status now)
          { retryCount := some (r.retryCount + 1), lastRetry := some now }) := by
  unfold incrementRetryCount
  rw [h]
  exact getRecording_update_self cat id r.status _ now r h hid

theorem processUpload_log (outcome : Nat → Option Nat) (now : Nat)
    (l : List Recording) :
    ∀ (cat : Catalog) (log : List Nat),
    (l.foldl (processUpload outcome now) (cat, log)).2
      = log ++ (l.filter (fun r => r.retryCount < MAX_RETRY_COUNT)).map
          Recording.id := by
  induction l with
  | nil =>
    intro cat log
    simp
  | cons r rs ih =>
    intro cat log
    simp only [List.foldl_cons, List.filter_cons]
    by_cases h : MAX_RETRY_COUNT ≤ r.retryCount
    · have hd : decide (r.retryCount < MAX_RETRY_COUNT) = false := by
        simp
        omega
      rw [hd]
      simp only [Bool.false_eq_true, if_false]
      have hstep : processUpload outcome now (cat, log) r = (cat, log) := by
        unfold processUpload
        rw [if_pos h]
      rw [hstep, ih]
    · have hd : decide (r.retryCount < MAX_RETRY_COUNT) = true := by
        simp
        omega
      rw [hd]
      simp only [if_true]
      have hstep : (processUpload outcome now (cat, log) r).2 = log ++ [r.id] := by
        unfold processUpload
        rw [if_neg h]
        cases outcome r.id <;> rfl
      rcases hps : processUpload outcome now (cat, log) r with ⟨cat2, log2⟩
      have hlog2 : log2 = log ++ [r.id] := by
        rw [hps] at hstep
        exact hstep
      rw [ih cat2 log2, hlog2]
      simp

theorem processUpload_frame (outcome : Nat → Option Nat) (now : Nat)
    (acc : Catalog × List Nat) (q : Recording) (j : Nat) (hj : j ≠ q.id) :
    getRecording (processUpload outcome now acc q).1 j = getRecording acc.1 j := by
  unfold processUpload
  by_cases h : MAX_RETRY_COUNT ≤ q.retryCount
  · rw [if_pos h]
  · rw [if_neg h]
    cases outcome q.id with
    | none =>
      simp only
      rw [getRecording_increment_ne _ _ _ _ hj,
        getRecording_update_ne _ _ _ _ _ _ hj,
        getRecording_update_ne _ _ _ _ _ _ hj]
    | some fileId =>
      simp only
      rw [getRecording_update_ne _ _ _ _ _ _ hj,
        getRecording_update_ne _ _ _ _ _ _ hj]

theorem foldUpload_frame (outcome : Nat → Option Nat) (now : Nat)
    (l : List Recording) (j : Nat) (hj : ∀ q ∈ l, j ≠ q.id) :
    ∀ acc, getRecording (l.foldl (processUpload outcome now) acc).1 j
      = getRecording acc.1 j := by
  induction l with
  | nil => intro acc; rfl
  | cons q qs ih =>
    intro acc
    rw [List.foldl_cons, ih (fun q2 hq2 => hj q2 (List.mem_cons_of_mem _ hq2)),
      processUpload_frame _ _ _ _ _ (hj q (List.mem_cons_self _ _))]

theorem processUpload_item (outcome : Nat → Option Nat) (now : Nat)
    (acc : Catalog × List Nat) (r : Recording)
    (hcur : getRecording acc.1 r.id = some r)
    (hretry : r.retryCount < MAX_RETRY_COUNT) :
    (outcome r.id = none →
      getRecording (processUpload outcome now acc r).1 r.id
        = some { r with
            status := .failed
            synced := 0
            retryCount := r.retryCount + 1
            lastRetry := some now }) ∧
    (∀ fileId, outcome r.id = some fileId →
      getRecording (processUpload outcome now acc r).1 r.id
        = some { r with
            status := .synced
            synced := 1
            syncedAt := some now
            driveFileId := some fileId }) := by
  have hno : ¬ MAX_RETRY_COUNT ≤ r.retryCount := by omega
  constructor
  · intro ho
    unfold processUpload
    rw [if_neg hno, ho]
    simp only
    have h1 := getRecording_update_self acc.1 r.id .uploading {} now r hcur rfl
    have h2 := getRecording_update_self _ r.id .failed {} now _ h1 rfl
    have h3 := getRecording_increment_self _ r.id now _ h2 rfl
    exact h3
  · intro fileId ho
    unfold processUpload
    rw [if_neg hno, ho]
    simp only
    have h1 := getRecording_update_self acc.1 r.id .uploading {} now r hcur rfl
    have h2 := getRecording_update_self _ r.id .synced
      { driveFileId := some fileId } now _ h1 rfl
    exact h2

/-! ## C1 — per-item failure handling in the sync pass -/

/-- C1 (counterexample): in app.js's `syncRecordings` (the Supabase variant)
the upload loop has no per-item catch.  With two unsynced recordings and an
upload that throws on the first item, the pass aborts: recording 1 keeps
status `pending` with `retryCount = 0` (no `failed` write, no retry
increment) and recording 2 is never uploaded (its Supabase row stays
unsynced), contradicting the claim that a failure is recorded and the pass
continues. -/
theorem C1_counterexample :
    (getRecording (syncRecordingsApp
        [{ id := 1, syncedToDrive := 0, driveFileId := none },
         { id := 2, syncedToDrive := 0, driveFileId := none }]
        { recs := [pendingRec 1, pendingRec 2], nextId := 3 }
        (fun _ => none) 9).2 1).map Recording.status = some Status.pending ∧
    (getRecording (syncRecordingsApp
        [{ id := 1, syncedToDrive := 0, driveFileId := none },
         { id := 2, syncedToDrive := 0, driveFileId := none }]
        { recs := [pendingRec 1, pendingRec 2], nextId := 3 }
        (fun _ => none) 9).2 1).map Recording.retryCount = some 0 ∧
    (syncRecordingsApp
        [{ id := 1, syncedToDrive := 0, driveFileId := none },
         { id := 2, syncedToDrive := 0, driveFileId := none }]
        { recs := [pendingRec 1, pendingRec 2], nextId := 3 }
        (fun _ => none) 9).1
      = [{ id := 1, syncedToDrive := 0, driveFileId := none },
         { id := 2, syncedToDrive := 0, driveFileId := none }] :=
  ⟨rfl, rfl, rfl⟩

/-- C1 (amended): the claim holds for the sync pass of the App module at the
end of drive.js: there, for every snapshot of unsynced recordings and every
pattern of per-item upload outcomes, an item below the retry cap whose upload
fails is rewritten to status `failed` with `retryCount` incremented and
`lastRetry` stamped, and an item whose upload succeeds is marked `synced` —
each independently of the other items' failures, so no failure aborts the
pass.  (In app.js's Supabase variant the first failure aborts the remainder;
see the counterexample.) -/
theorem C1_legacy_per_item (cat : Catalog) (outcome : Nat → Option Nat)
    (now : Nat) (hnd : (cat.recs.map Recording.id).Nodup)
    (r : Recording) (hr : r ∈ getUnsyncedRecordings cat)
    (hretry : r.retryCount < MAX_RETRY_COUNT) :
    (outcome r.id = none →
      getRecording (syncRecordingsLegacy cat outcome now).1 r.id
        = some { r with
            status := .failed
            synced := 0
            retryCount := r.retryCount + 1
            lastRetry := some now }) ∧
    (∀ fileId, outcome r.id = some fileId →
      getRecording (syncRecordingsLegacy cat outcome now).1 r.id
        = some { r with
            status := .synced
            synced := 1
            syncedAt := some now
            driveFileId := some fileId }) := by
  have hrrecs : r ∈ cat.recs := (List.mem_filter.mp hr).1
  have hsnapnd : ((getUnsyncedRecordings cat).map Recording.id).Nodup :=
    hnd.sublist ((List.filter_sublist cat.recs).map Recording.id)
  obtain ⟨l1, l2, hsplit⟩ := List.append_of_mem hr
  have hnd2 : (l1.map Recording.id ++ r.id :: l2.map Recording.id).Nodup := by
    have := hsplit ▸ hsnapnd
    simpa using this
  have hl1 : ∀ q ∈ l1, r.id ≠ q.id := by
    intro q hq he
    have hdisj := (List.nodup_append.mp hnd2).2.2
    exact hdisj (he ▸ List.mem_map_of_mem Recording.id hq)
      (List.mem_cons_self _ _)
  have hl2 : ∀ q ∈ l2, r.id ≠ q.id := by
    intro q hq he
    have hcons := (List.nodup_append.mp hnd2).2.1
    exact (List.nodup_cons.mp hcons).1 (he ▸ List.mem_map_of_mem Recording.id hq)
  have hcat0 : getRecording cat r.id = some r := find?_id_of_mem cat.recs r hnd hrrecs
  have hmid : getRecording ((l1.foldl (processUpload outcome now) (cat, [])).1) r.id
      = some r := by
    rw [foldUpload_frame outcome now l1 r.id hl1]
    exact hcat0
  have hitem := processUpload_item outcome now
    (l1.foldl (processUpload outcome now) (cat, [])) r hmid hretry
  have hfold : (syncRecordingsLegacy cat outcome now).1
      = (l2.foldl (processUpload outcome now)
          (processUpload outcome now
            (l1.foldl (processUpload outcome now) (cat, [])) r)).1 := by
    unfold syncRecordingsLegacy
    rw [hsplit, List.foldl_append, List.foldl_cons]
  constructor
  · intro ho
    rw [hfold, foldUpload_frame outcome now l2 r.id hl2]
    exact hitem.1 ho
  · intro fileId ho
    rw [hfold, foldUpload_frame outcome now l2 r.id hl2]
    exact hitem.2 fileId ho

/-- C1 witness: on a two-recording catalog where item 1's upload fails and
item 2's succeeds, the drive.js pass records the failure on item 1 and still
syncs item 2. -/
theorem C1_legacy_per_item_witness :
    getRecording (syncRecordingsLegacy
        { recs := [pendingRec 1, pendingRec 2], nextId := 3 }
        (fun i => if i = 2 then some 77 else none) 9).1 1
      = some { pendingRec 1 with
          status := .failed
          synced := 0
          retryCount := 1
          lastRetry := some 9 } ∧
    getRecording (syncRecordingsLegacy
        { recs := [pendingRec 1, pendingRec 2], nextId := 3 }
        (fun i => if i = 2 then some 77 else none) 9).1 2
      = some { pendingRec 2 with
          status := .synced
          synced := 1
          syncedAt := some 9
          driveFileId := some 77 } :=
  ⟨(C1_legacy_per_item { recs := [pendingRec 1, pendingRec 2], nextId := 3 }
      (fun i => if i = 2 then some 77 else none) 9 (by decide) (pendingRec 1)
      (by decide) (by decide)).1 rfl,
   (C1_legacy_per_item { recs := [pendingRec 1, pendingRec 2], nextId := 3 }
      (fun i => if i = 2 then some 77 else none) 9 (by decide) (pendingRec 2)
      (by decide) (by decide)).2 77 rfl⟩

/-! ## C3 — dead-letter boundary -/

/-- C3: once a recording's `retryCount` has reached `MAX_RETRY_COUNT`, the
drive.js sync pass never hands it to the uploader: the scan
(`getUnsyncedRecordings`) may still return it, but the loop's
`retryCount >= MAX_RETRY_COUNT` skip keeps its id out of the pass's upload
log, for every catalog and every outcome pattern — the dead-letter boundary,
pending an external reset of the counter. -/
theorem C3_dead_letter (cat : Catalog) (outcome : Nat → Option Nat) (now : Nat)
    (hnd : (cat.recs.map Recording.id).Nodup)
    (r : Recording) (hr : r ∈ cat.recs)
    (hmax : MAX_RETRY_COUNT ≤ r.retryCount) :
    r.id ∉ (syncRecordingsLegacy cat outcome now).2 := by
  unfold syncRecordingsLegacy
  rw [processUpload_log]
  simp only [List.nil_append]
  intro hmem
  obtain ⟨q, hq, hqid⟩ := List.mem_map.mp hmem
  obtain ⟨hq1, hq2⟩ := List.mem_filter.mp hq
  have hq3 : q ∈ cat.recs := (List.mem_filter.mp hq1).1
  have hqr : q = r := List.inj_on_of_nodup_map hnd hq3 hr hqid
  have hlt : q.retryCount < MAX_RETRY_COUNT := by simpa using hq2
  rw [hqr] at hlt
  omega

/-- C3 witness: a recording at the retry cap (5) is not uploaded by the pass
even though the unsynced scan returns it. -/
theorem C3_dead_letter_witness :
    ({ pendingRec 3 with retryCount := 5 } : Recording).id ∉
      (syncRecordingsLegacy
        { recs := [{ pendingRec 3 with retryCount := 5 }], nextId := 4 }
        (fun _ => some 99) 0).2 :=
  C3_dead_letter { recs := [{ pendingRec 3 with retryCount := 5 }], nextId := 4 }
    (fun _ => some 99) 0 (by decide) { pendingRec 3 with retryCount := 5 }
    (by decide) (by decide)

/-! ## Chunk store and recovery helper lemmas -/

theorem sortBySeq_of_chain (l : List Chunk)
    (h : List.Chain' (fun a b => a.sequence ≤ b.sequence) l) :
    sortBySeq l = l := by
  induction l with
  | nil => rfl
  | cons c cs ih =>
    rw [sortBySeq, ih h.tail]
    cases cs with
    | nil => rfl
    | cons d ds =>
      have hcd : c.sequence ≤ d.sequence := (List.chain'_cons.mp h).1
      rw [insertBySeq, if_pos hcd]

theorem chain_of_seq_range (l : List Chunk) (k : Nat)
    (h : l.map Chunk.sequence = List.range k) :
    List.Chain' (fun a b => a.sequence ≤ b.sequence) l := by
  have h1 : List.Chain' (· ≤ ·) (l.map Chunk.sequence) := by
    rw [h]
    exact ((List.pairwise_lt_range k).chain').imp
      (fun a b hab => le_of_lt hab)
  exact (List.chain'_map Chunk.sequence).mp h1

theorem mem_dedupFirst (a : Nat) : ∀ l : List Nat, a ∈ dedupFirst l ↔ a ∈ l
  | [] => by simp [dedupFirst]
  | x :: xs => by
    rw [dedupFirst]
    by_cases hax : a = x
    · simp [hax]
    · simp only [List.mem_cons, hax, false_or]
      rw [mem_dedupFirst a (xs.filter (fun y => y != x))]
      simp [hax]
termination_by l => l.length
decreasing_by
  simp only [List.length_cons]
  exact Nat.lt_succ_of_le (List.length_filter_le _ _)

theorem nodup_dedupFirst : ∀ l : List Nat, (dedupFirst l).Nodup
  | [] => by simp [dedupFirst]
  | x :: xs => by
    rw [dedupFirst]
    refine List.nodup_cons.mpr ⟨?_, nodup_dedupFirst (xs.filter (fun y => y != x))⟩
    intro hmem
    have := (mem_dedupFirst x _).mp hmem
    simp at this
termination_by l => l.length
decreasing_by
  simp only [List.length_cons]
  exact Nat.lt_succ_of_le (List.length_filter_le _ _)

theorem chunksFor_clear_ne (sid sid2 : Nat) (cs : List Chunk) (h : sid ≠ sid2) :
    chunksFor sid (clearSessionChunks sid2 cs) = chunksFor sid cs := by
  unfold chunksFor clearSessionChunks
  rw [List.filter_filter]
  apply List.filter_congr
  intro c _
  by_cases hc : c.sessionId = sid
  · simp [hc, h]
  · simp [hc]

theorem chunksFor_clear_self (sid : Nat) (cs : List Chunk) :
    chunksFor sid (clearSessionChunks sid cs) = [] := by
  unfold chunksFor clearSessionChunks
  rw [List.filter_filter]
  apply List.filter_eq_nil_iff.mpr
  intro c _
  by_cases hc : c.sessionId = sid
  · simp [hc]
  · simp [hc]

theorem recsFor_processSession_ne (now : Nat) (st : AppStore) (sid sid2 : Nat)
    (h : sid ≠ sid2) :
    recsFor sid (processSession now st sid2).catalog = recsFor sid st.catalog := by
  unfold processSession
  cases hb : recoverFromChunks sid2 st.chunks with
  | none => rfl
  | some b =>
    by_cases hs : 0 < b.size
    · simp only [hs, if_true]
      unfold recsFor saveRecording
      simp only
      rw [List.filter_append]
      have hpred : ((some sid2 : Option Nat) == some sid) = false := by
        simp
        exact fun he => h he.symm
      simp [hpred]
    · simp only [hs, if_false]

theorem processSession_frame (now : Nat) (st : AppStore) (sid sid2 : Nat)
    (h : sid ≠ sid2) :
    chunksFor sid (processSession now st sid2).chunks = chunksFor sid st.chunks ∧
    recsFor sid (processSession now st sid2).catalog = recsFor sid st.catalog :=
  ⟨chunksFor_clear_ne sid sid2 st.chunks h,
   recsFor_processSession_ne now st sid sid2 h⟩

theorem foldSessions_frame (now : Nat) (sid : Nat) (l : List Nat)
    (h : ∀ s ∈ l, s ≠ sid) :
    ∀ st : AppStore,
      chunksFor sid (l.foldl (processSession now) st).chunks
        = chunksFor sid st.chunks ∧
      recsFor sid (l.foldl (processSession now) st).catalog
        = recsFor sid st.catalog := by
  induction l with
  | nil => intro st; exact ⟨rfl, rfl⟩
  | cons s l2 ih =>
    intro st
    rw [List.foldl_cons]
    have hs : sid ≠ s := fun he => h s (List.mem_cons_self _ _) he.symm
    have hstep := processSession_frame now st sid s hs
    have hrest := ih (fun s2 hs2 => h s2 (List.mem_cons_of_mem _ hs2))
      (processSession now st s)
    exact ⟨hrest.1.trans hstep.1, hrest.2.trans hstep.2⟩

theorem processSession_self (now : Nat) (st : AppStore) (sid : Nat) (k : Nat)
    (hseq : seqsFor sid st.chunks = List.range k) (hk : 0 < k)
    (hblobs : ∀ c ∈ chunksFor sid st.chunks, c.blob.data ≠ []) :
    chunksFor sid (processSession now st sid).chunks = [] ∧
    ∃ e, recsFor sid (processSession now st sid).catalog
        = recsFor sid st.catalog ++ [e] ∧
      e.status = .pending ∧ e.recovered = true ∧
      e.originalSessionId = some sid ∧
      e.blob.data
        = ((chunksFor sid st.chunks).map (fun c => c.blob.data)).flatten := by
  have hsorted : sortBySeq (chunksFor sid st.chunks) = chunksFor sid st.chunks :=
    sortBySeq_of_chain _ (chain_of_seq_range _ k hseq)
  have hlen : (chunksFor sid st.chunks).length = k := by
    have := congrArg List.length hseq
    simpa [seqsFor] using this
  have hne : chunksFor sid st.chunks ≠ [] := by
    intro hnil
    rw [hnil] at hlen
    simp at hlen
    omega
  have hget : getSessionChunks sid st.chunks = chunksFor sid st.chunks := by
    unfold getSessionChunks
    exact hsorted
  have hrecov : recoverFromChunks sid st.chunks
      = some (Blob.concatList ((chunksFor sid st.chunks).map Chunk.blob)) := by
    unfold recoverFromChunks
    rw [hget]
    rw [if_neg (by simpa [List.isEmpty_iff] using hne)]
  have hdata : (Blob.concatList ((chunksFor sid st.chunks).map Chunk.blob)).data
      = ((chunksFor sid st.chunks).map (fun c => c.blob.data)).flatten := by
    unfold Blob.concatList
    simp [List.map_map, Function.comp_def]
  have hsize : 0 < (Blob.concatList ((chunksFor sid st.chunks).map Chunk.blob)).size := by
    unfold Blob.size
    rw [hdata]
    rcases hcs : chunksFor sid st.chunks with _ | ⟨c0, rest⟩
    · exact absurd hcs hne
    · have hc0 : c0.blob.data ≠ [] := hblobs c0 (by rw [hcs]; exact List.mem_cons_self _ _)
      simp only [List.map_cons, List.flatten_cons, List.length_append]
      have : 0 < c0.blob.data.length := List.length_pos.mpr hc0
      omega
  constructor
  · unfold processSession
    exact chunksFor_clear_self sid st.chunks
  · refine ⟨{ id := st.catalog.nextId
              blob := Blob.concatList ((chunksFor sid st.chunks).map Chunk.blob)
              timestamp := now
              duration := 0
              fileName := genFileName now
              drivePath := genDrivePath now
              status := .pending
              synced := 0
              retryCount := 0
              lastRetry := none
              fileSize := (Blob.concatList
                ((chunksFor sid st.chunks).map Chunk.blob)).size
              mimeType := (Blob.concatList
                ((chunksFor sid st.chunks).map Chunk.blob)).btype
              syncedAt := none
              driveFileId := none
              driveId := none
              recovered := true
              originalSessionId := some sid }, ?_, rfl, rfl, rfl, hdata⟩
    unfold processSession
    rw [hrecov]
    simp only [hsize, if_true]
    unfold recsFor saveRecording
    simp only
    rw [List.filter_append]
    simp

/-! ## C5 — crash recovery -/

/-- C5: run once at startup, `checkForRecovery` turns every session present
in the chunk store — its persisted sequences forming the recorder's
`0..k−1` range with nonempty payloads, as the recorder writes them — into
exactly one new catalog entry with status `pending` and the recovered flag
set, whose payload is the concatenation of the session's chunks in ascending
sequence order, and then clears the session's chunks so `getSessionChunks`
returns empty; a session with zero chunks produces no catalog entry. -/
theorem C5_crash_recovery (st : AppStore) (now : Nat) :
    (∀ sid k, seqsFor sid st.chunks = List.range k → 0 < k →
      (∀ c ∈ chunksFor sid st.chunks, c.blob.data ≠ []) →
      (∃ e, recsFor sid (checkForRecovery st now).catalog
          = recsFor sid st.catalog ++ [e] ∧
        e.status = .pending ∧ e.recovered = true ∧
        e.blob.data
          = ((chunksFor sid st.chunks).map (fun c => c.blob.data)).flatten) ∧
      getSessionChunks sid (checkForRecovery st now).chunks = []) ∧
    (∀ sid, chunksFor sid st.chunks = [] →
      recsFor sid (checkForRecovery st now).catalog
        = recsFor sid st.catalog) := by
  constructor
  · intro sid k hseq hk hblobs
    have hlen : (chunksFor sid st.chunks).length = k := by
      have := congrArg List.length hseq
      simpa [seqsFor] using this
    have hne : chunksFor sid st.chunks ≠ [] := by
      intro hnil
      rw [hnil] at hlen
      simp at hlen
      omega
    obtain ⟨c0, hc0⟩ := List.exists_mem_of_ne_nil _ hne
    have hc0f := List.mem_filter.mp hc0
    have hmem_map : sid ∈ st.chunks.map Chunk.sessionId := by
      have hcs : c0.sessionId = sid := by simpa using hc0f.2
      exact hcs ▸ List.mem_map_of_mem Chunk.sessionId hc0f.1
    have horph : sid ∈ getOrphanedSessions st.chunks :=
      (mem_dedupFirst sid _).mpr hmem_map
    obtain ⟨L1, L2, hsplit⟩ := List.append_of_mem horph
    have hnd2 : (L1 ++ sid :: L2).Nodup :=
      hsplit ▸ nodup_dedupFirst (st.chunks.map Chunk.sessionId)
    obtain ⟨h1nd, h2nd, hdisj⟩ := List.nodup_append.mp hnd2
    have hsidL2 : sid ∉ L2 := (List.nodup_cons.mp h2nd).1
    have hsidL1 : sid ∉ L1 := fun hmem => hdisj hmem (List.mem_cons_self _ _)
    have hrun : checkForRecovery st now
        = L2.foldl (processSession now)
            (processSession now (L1.foldl (processSession now) st) sid) := by
      unfold checkForRecovery
      rw [hsplit, List.foldl_append, List.foldl_cons]
    have hmid := foldSessions_frame now sid L1
      (fun s hs he => hsidL1 (he ▸ hs)) st
    have hseq2 : seqsFor sid (L1.foldl (processSession now) st).chunks
        = List.range k := by
      unfold seqsFor
      rw [hmid.1]
      exact hseq
    have hblobs2 : ∀ c ∈ chunksFor sid (L1.foldl (processSession now) st).chunks,
        c.blob.data ≠ [] := by
      rw [hmid.1]
      exact hblobs
    have hstep := processSession_self now (L1.foldl (processSession now) st)
      sid k hseq2 hk hblobs2
    obtain ⟨e, hcat, hst1, hst2, hst3, hst4⟩ := hstep.2
    have hrest := foldSessions_frame now sid L2
      (fun s hs he => hsidL2 (he ▸ hs))
      (processSession now (L1.foldl (processSession now) st) sid)
    constructor
    · refine ⟨e, ?_, hst1, hst2, ?_⟩
      · rw [hrun, hrest.2, hcat, hmid.2]
      · rw [hmid.1] at hst4
        exact hst4
    · rw [hrun]
      unfold getSessionChunks
      rw [hrest.1, hstep.1]
      rfl
  · intro sid hnil
    have hnotmem : sid ∉ st.chunks.map Chunk.sessionId := by
      intro hmem
      obtain ⟨c, hc, hcs⟩ := List.mem_map.mp hmem
      have hcin : c ∈ chunksFor sid st.chunks :=
        List.mem_filter.mpr ⟨hc, by simp [hcs]⟩
      rw [hnil] at hcin
      cases hcin
    have hfold := foldSessions_frame now sid (getOrphanedSessions st.chunks)
      (fun s hs he => hnotmem (he ▸ (mem_dedupFirst s _).mp hs)) st
    exact hfold.2

/-- C5 witness: on the spec's example (chunks "He", "llo" for session 0),
recovery yields one pending recovered entry whose payload is "Hello"
(bytes 72 101 108 108 111) and leaves `getSessionChunks 0` empty. -/
theorem C5_crash_recovery_witness :
    (∃ e, recsFor 0 (checkForRecovery demoStore 7).catalog
        = recsFor 0 demoStore.catalog ++ [e] ∧
      e.status = .pending ∧ e.recovered = true ∧
      e.blob.data = [72, 101, 108, 108, 111]) ∧
    getSessionChunks 0 (checkForRecovery demoStore 7).chunks = [] :=
  (C5_crash_recovery demoStore 7).1 0 2 (by decide) (by decide) (by decide)

/-! ## Recorder machine invariant (C6, C7) -/

theorem seqsFor_append_self (S : Nat) (cs : List Chunk) (c : Chunk)
    (h : c.sessionId = S) :
    seqsFor S (cs ++ [c]) = seqsFor S cs ++ [c.sequence] := by
  unfold seqsFor chunksFor
  rw [List.filter_append]
  simp [h]

theorem seqsFor_append_ne (S : Nat) (cs : List Chunk) (c : Chunk)
    (h : c.sessionId ≠ S) :
    seqsFor S (cs ++ [c]) = seqsFor S cs := by
  unfold seqsFor chunksFor
  rw [List.filter_append]
  simp [h]

theorem seqsFor_clear_self (S : Nat) (cs : List Chunk) :
    seqsFor S (clearSessionChunks S cs) = [] := by
  unfold seqsFor
  rw [chunksFor_clear_self]
  rfl

theorem seqsFor_clear_ne (S sid : Nat) (cs : List Chunk) (h : S ≠ sid) :
    seqsFor S (clearSessionChunks sid cs) = seqsFor S cs := by
  unfold seqsFor
  rw [chunksFor_clear_ne S sid cs h]

theorem flatten_ne_nil (ls : List (List Nat)) (hne : ls ≠ [])
    (h : ∀ f ∈ ls, f ≠ []) : ls.flatten ≠ [] := by
  cases ls with
  | nil => exact absurd rfl hne
  | cons f fs =>
    have hf := h f (List.mem_cons_self _ _)
    simp only [List.flatten_cons]
    intro hcon
    exact hf (List.append_eq_nil.mp hcon).1

theorem RInv_of_fields (st st2 : RecorderM)
    (hsess : st2.sessionId = st.sessionId) (hnext : st2.nextSid = st.nextSid)
    (hseqc : st2.chunkSequence = st.chunkSequence)
    (hfr : st2.fragments = st.fragments) (hstore : st2.store = st.store)
    (h : RInv st) : RInv st2 := by
  unfold RInv at h ⊢
  rw [hsess, hnext, hseqc, hfr, hstore]
  exact h

theorem saveCurrentChunkR_inv (now : Nat) (st : RecorderM) (h : RInv st) :
    RInv (saveCurrentChunkR now st) := by
  obtain ⟨hfresh, hcur, hall, hfrags, hblobs⟩ := h
  unfold saveCurrentChunkR
  cases hsid : st.sessionId with
  | none => exact ⟨hfresh, hcur, hall, hfrags, hblobs⟩
  | some sid =>
    dsimp only
    by_cases hemp : st.fragments.isEmpty = true
    · rw [if_pos hemp]
      exact ⟨hfresh, hcur, hall, hfrags, hblobs⟩
    · rw [if_neg hemp]
      have hsidlt := (hcur sid hsid).1
      have hsidseq := (hcur sid hsid).2
      unfold RInv
      dsimp only
      refine ⟨?_, ?_, ?_, ?_, ?_⟩
      · intro S hS
        rw [seqsFor_append_ne S st.store _ (by simp; omega)]
        exact hfresh S (by omega)
      · intro S hSeq
        have hSsid : S = sid := by
          simpa using hSeq.symm
        subst hSsid
        refine ⟨hsidlt, ?_⟩
        rw [seqsFor_append_self S st.store _ (by simp)]
        rw [hsidseq, List.range_succ]
      · intro S
        by_cases hS : S = sid
        · subst hS
          refine ⟨st.chunkSequence + 1, ?_⟩
          rw [seqsFor_append_self S st.store _ (by simp)]
          rw [hsidseq, List.range_succ]
        · obtain ⟨k, hk⟩ := hall S
          refine ⟨k, ?_⟩
          rw [seqsFor_append_ne S st.store _
            (by simp; exact fun he => hS he.symm)]
          exact hk
      · intro f hf
        cases hf
      · intro c hc
        rcases List.mem_append.mp hc with hold | hnew
        · exact hblobs c hold
        · have hceq : c = { sessionId := sid
                            sequence := st.chunkSequence
                            blob := { data := st.fragments.flatten, btype := recMime }
                            timestamp := now } := by
            simpa using hnew
          rw [hceq]
          exact flatten_ne_nil st.fragments
            (by simpa [List.isEmpty_iff] using hemp) hfrags

theorem startR_inv (now : Nat) (st : RecorderM) (h : RInv st) :
    RInv (startR now st) := by
  obtain ⟨hfresh, hcur, hall, hfrags, hblobs⟩ := h
  unfold startR
  by_cases hrec : st.recSt = .recording
  · rw [if_pos hrec]
    exact ⟨hfresh, hcur, hall, hfrags, hblobs⟩
  · rw [if_neg hrec]
    unfold RInv
    dsimp only
    refine ⟨?_, ?_, ?_, ?_, ?_⟩
    · intro S hS
      exact hfresh S (by omega)
    · intro S hSeq
      have hSsid : S = st.nextSid := by
        simpa using hSeq.symm
      subst hSsid
      refine ⟨by omega, ?_⟩
      rw [List.range_zero]
      exact hfresh st.nextSid (le_refl _)
    · exact hall
    · intro f hf
      cases hf
    · exact hblobs

theorem clearSession_inv_fields (st : RecorderM) (h : RInv st) :
    (∀ S, st.nextSid ≤ S →
      seqsFor S (match st.sessionId with
        | some sid => clearSessionChunks sid st.store
        | none => st.store) = []) ∧
    (∀ S, ∃ k, seqsFor S (match st.sessionId with
        | some sid => clearSessionChunks sid st.store
        | none => st.store) = List.range k) ∧
    (∀ c ∈ (match st.sessionId with
        | some sid => clearSessionChunks sid st.store
        | none => st.store), c.blob.data ≠ []) := by
  obtain ⟨hfresh, hcur, hall, hfrags, hblobs⟩ := h
  cases hsid : st.sessionId with
  | none => exact ⟨hfresh, hall, hblobs⟩
  | some sid =>
    refine ⟨?_, ?_, ?_⟩
    · intro S hS
      by_cases hSsid : S = sid
      · subst hSsid
        exact seqsFor_clear_self S st.store
      · rw [seqsFor_clear_ne S sid st.store hSsid]
        exact hfresh S hS
    · intro S
      by_cases hSsid : S = sid
      · subst hSsid
        exact ⟨0, seqsFor_clear_self S st.store⟩
      · rw [seqsFor_clear_ne S sid st.store hSsid]
        exact hall S
    · intro c hc
      exact hblobs c (List.mem_of_mem_filter hc)

theorem stopRec_inv (st : RecorderM) (h : RInv st) : RInv (stopRec st) := by
  unfold stopRec
  by_cases hrec : st.recSt = .inactive
  · rw [if_pos hrec]
    exact RInv_of_fields st _ rfl rfl rfl rfl rfl h
  · rw [if_neg hrec]
    obtain ⟨hc1, hc2, hc3⟩ := clearSession_inv_fields st h
    unfold RInv
    dsimp only
    exact ⟨hc1, fun S hSeq => Option.noConfusion hSeq, hc2,
      fun f hf => absurd hf (List.not_mem_nil f), hc3⟩

theorem cancelRec_inv (st : RecorderM) (h : RInv st) : RInv (cancelRec st) := by
  unfold cancelRec
  obtain ⟨hc1, hc2, hc3⟩ := clearSession_inv_fields st h
  unfold RInv
  dsimp only
  exact ⟨hc1, fun S hSeq => Option.noConfusion hSeq, hc2,
    fun f hf => absurd hf (List.not_mem_nil f), hc3⟩

theorem dataAvailR_inv (frag : List Nat) (st : RecorderM) (h : RInv st) :
    RInv (dataAvailR frag st) := by
  obtain ⟨hfresh, hcur, hall, hfrags, hblobs⟩ := h
  unfold dataAvailR
  by_cases hrec : st.recSt = .recording
  · rw [if_pos hrec]
    by_cases hemp : frag.isEmpty = true
    · rw [if_pos hemp]
      exact ⟨hfresh, hcur, hall, hfrags, hblobs⟩
    · rw [if_neg hemp]
      refine ⟨hfresh, hcur, hall, ?_, hblobs⟩
      intro f hf
      rcases List.mem_append.mp hf with hold | hnew
      · exact hfrags f hold
      · have : f = frag := by simpa using hnew
        rw [this]
        simpa [List.isEmpty_iff] using hemp
  · rw [if_neg hrec]
    exact ⟨hfresh, hcur, hall, hfrags, hblobs⟩

theorem resumeR_inv (now : Nat) (st : RecorderM) (h : RInv st) :
    RInv (resumeR now st) := by
  refine RInv_of_fields st _ ?_ ?_ ?_ ?_ ?_ h <;>
    (unfold resumeR
     by_cases hp : st.recSt = .paused
     · rw [if_pos hp]
       cases hps : st.pauseStartTime with
       | none => rfl
       | some p =>
         dsimp only
         by_cases hz : p ≠ 0
         · rw [if_pos hz]
         · rw [if_neg hz]
     · rw [if_neg hp])

theorem pauseR_inv (now : Nat) (st : RecorderM) (h : RInv st) :
    RInv (pauseR now st) := by
  unfold pauseR
  by_cases hp : st.recSt = .recording
  · rw [if_pos hp]
    apply saveCurrentChunkR_inv
    exact RInv_of_fields st _ rfl rfl rfl rfl rfl h
  · rw [if_neg hp]
    exact h

theorem stepR_inv (st : RecorderM) (e : REvent) (h : RInv st) :
    RInv (stepR st e) := by
  cases e with
  | start now => exact startR_inv now st h
  | dataAvail frag => exact dataAvailR_inv frag st h
  | flushTick now =>
    show RInv (flushTickR now st)
    unfold flushTickR
    by_cases ht : st.timerOn = true
    · rw [if_pos ht]
      exact saveCurrentChunkR_inv now st h
    · rw [if_neg ht]
      exact h
  | pauseE now => exact pauseR_inv now st h
  | resumeE now => exact resumeR_inv now st h
  | stopE => exact stopRec_inv st h
  | cancelE => exact cancelRec_inv st h

theorem runR_inv (evs : List REvent) : RInv (runR initR evs) := by
  have hinit : RInv initR := by
    refine ⟨?_, ?_, ?_, ?_, ?_⟩
    · intro S _
      rfl
    · intro S hSeq
      cases hSeq
    · intro S
      exact ⟨0, rfl⟩
    · intro f hf
      cases hf
    · intro c hc
      cases hc
  have hrun : ∀ st, RInv st → RInv (evs.foldl stepR st) := by
    induction evs with
    | nil => exact fun st hst => hst
    | cons e evs ih =>
      intro st hst
      exact ih _ (stepR_inv st e hst)
  exact hrun initR hinit

/-! ## C6 — chunk sequence contiguity -/

/-- C6: after any event trace (any interleaving of periodic flushes,
pause-triggered flushes and the other recorder events), the chunks
`getSessionChunks` returns for any session carry sequence numbers that are
exactly `0, 1, …, n−1` — contiguous from 0, strictly increasing, with no
gaps and no duplicates. -/
theorem C6_chunk_sequences (evs : List REvent) (S : Nat) :
    ((getSessionChunks S (runR initR evs).store).map Chunk.sequence
      = List.range ((getSessionChunks S (runR initR evs).store).length)) ∧
    List.Chain' (· < ·)
      ((getSessionChunks S (runR initR evs).store).map Chunk.sequence) := by
  obtain ⟨k, hk⟩ := (runR_inv evs).2.2.1 S
  have hchain := chain_of_seq_range (chunksFor S (runR initR evs).store) k hk
  have hsorted := sortBySeq_of_chain _ hchain
  have hget : getSessionChunks S (runR initR evs).store
      = chunksFor S (runR initR evs).store := hsorted
  have hlen : (chunksFor S (runR initR evs).store).length = k := by
    have := congrArg List.length hk
    simpa [seqsFor] using this
  constructor
  · rw [hget, hlen]
    exact hk
  · rw [hget]
    have : (chunksFor S (runR initR evs).store).map Chunk.sequence
        = List.range k := hk
    rw [this]
    exact (List.pairwise_lt_range k).chain'

/-! ## C7 — start while a session is active -/

/-- C7 (counterexample): after `start`, a buffered fragment, a flush (the
session now has one chunk, sequence counter 1) and a `pause`, the session is
`paused` with id 0; a second `start` does not fail — it silently replaces the
active session: the session id becomes 1 and the sequence counter resets to
0, contradicting the claim that starting over an active (Paused) session is
rejected and leaves its state unchanged. -/
theorem C7_counterexample :
    (runR initR [REvent.start 0, REvent.dataAvail [42], REvent.flushTick 1,
        REvent.pauseE 5]).recSt = RecState.paused ∧
    (runR initR [REvent.start 0, REvent.dataAvail [42], REvent.flushTick 1,
        REvent.pauseE 5]).sessionId = some 0 ∧
    (runR initR [REvent.start 0, REvent.dataAvail [42], REvent.flushTick 1,
        REvent.pauseE 5, REvent.start 7]).sessionId = some 1 ∧
    (runR initR [REvent.start 0, REvent.dataAvail [42], REvent.flushTick 1,
        REvent.pauseE 5, REvent.start 7]).chunkSequence = 0 := by
  refine ⟨rfl, rfl, rfl, rfl⟩

/-- C7 (amended): `start` guards only against the Recording state — there it
returns without error and leaves the entire recorder state unchanged (a
warn-and-return no-op rather than a SessionConflict rejection); starting
while Paused is not guarded and silently replaces the active session with a
fresh one (fresh session id, sequence counter and pause bookkeeping reset,
state back to Recording). -/
theorem C7_start_guard (st : RecorderM) (now : Nat) :
    (st.recSt = .recording → startR now st = st) ∧
    (st.recSt = .paused →
      (startR now st).sessionId = some st.nextSid ∧
      (startR now st).chunkSequence = 0 ∧
      (startR now st).pausedDuration = 0 ∧
      (startR now st).recSt = .recording) := by
  constructor
  · intro hrec
    unfold startR
    rw [if_pos hrec]
  · intro hp
    have hne : st.recSt ≠ .recording := by
      rw [hp]
      intro hcon
      cases hcon
    unfold startR
    rw [if_neg hne]
    exact ⟨rfl, rfl, rfl, rfl⟩

/-- C7 witness: at the concrete recording state reached by `start`, a second
`start` changes nothing; at the concrete paused state reached by `start` then
`pause`, `start` installs the fresh session 1. -/
theorem C7_start_guard_witness :
    startR 5 (runR initR [REvent.start 0]) = runR initR [REvent.start 0] ∧
    ((startR 7 (runR initR [REvent.start 0, REvent.pauseE 3])).sessionId
        = some (runR initR [REvent.start 0, REvent.pauseE 3]).nextSid ∧
      (startR 7 (runR initR [REvent.start 0, REvent.pauseE 3])).chunkSequence = 0 ∧
      (startR 7 (runR initR [REvent.start 0, REvent.pauseE 3])).pausedDuration = 0 ∧
      (startR 7 (runR initR [REvent.start 0, REvent.pauseE 3])).recSt
        = .recording) :=
  ⟨(C7_start_guard (runR initR [REvent.start 0]) 5).1 rfl,
   (C7_start_guard (runR initR [REvent.start 0, REvent.pauseE 3]) 7).2 rfl⟩

end VoiceToDrive
